import Mathlib

/-!
# Verification of the GSM call-router core

A shallow embedding of the call-state tracking and event fan-out core of the
`gsm-call-router-poc` repository (files `app/models.py`, `app/asterisk_manager.py`,
`app/handlers.py`, `app/main.py`), together with theorems settling the spec's
claims about it.

Modelling conventions:
* Python strings become `String`; `str.lower` becomes `Char.toLower`
  mapped over the characters (both lower-case ASCII letters; all inputs of
  interest are ASCII).
* The `active_calls` Python dict becomes an association list
  `List (String × CallEvent)` with operations mirroring dict semantics
  (replace-in-place on insert of an existing key, append otherwise);
  the dict's key-uniqueness is the predicate `keysNodup`.
* WebSocket handles become `Nat`; `websocket_clients` is a `List Nat`,
  mirroring the Python list.
* Sends to the Asterisk link are recorded in a `sentCommands` history so
  that "a command was issued" is observable; delivery outcomes of pushes
  to subscribers are an oracle `outcome : Nat → Bool` indexed by the
  position of the delivery attempt in the loop (`True` = send succeeded,
  `False` = the send raised).
* The `asyncio.create_task` spawns (routing, broadcast) are modelled
  synchronously; the broadcast fan-out is modelled by the standalone
  `broadcastEvent`, exactly as the method only touches `websocket_clients`.
-/

namespace GsmRouter

/-- `CallState` enum from `app/models.py`. -/
inductive CallState where
  | RINGING
  | ANSWERED
  | HANGUP
deriving DecidableEq

/-- `CallType` enum from `app/models.py`. -/
inductive CallType where
  | INCOMING_GSM
  | INTERNAL
  | SIP_TRUNK
deriving DecidableEq

/-- `CallEvent` from `app/models.py`: the normalized event record.
`call_state` and `call_type` default to `None` in the constructor, hence
`Option`. -/
structure CallEvent where
  event_type : String
  channel : String
  caller_id : String
  extension : String
  unique_id : String
  timestamp : String
  call_state : Option CallState
  call_type : Option CallType
deriving DecidableEq

/-- A raw AMI event as consumed by `_handle_ami_event`: the fields read via
`event.get(..., '')`, with a missing field already degraded to `""`. -/
structure RawEvent where
  event : String
  channel : String
  callerIDNum : String
  extension : String
  uniqueid : String
  timestamp : String
  context : String
  channelState : String
deriving DecidableEq

/-- Outbound AMI actions built with `SimpleAction` in the source. -/
inductive AmiCommand where
  | redirect (channel context exten : String) (priority : Nat)
  | originate (channel context exten callerid : String) (priority : Nat)
  | hangupCmd (channel : String)
deriving DecidableEq

/-- Substring search on lists of characters: Python's `needle in hay`. -/
def listContainsSub (needle : List Char) : List Char → Bool
  | [] => needle.isEmpty
  | c :: rest => needle.isPrefixOf (c :: rest) || listContainsSub needle rest

/-- ASCII lower-casing of a string, as a character list (`str.lower` applied
to the ASCII inputs this system sees). -/
def lowerList (s : String) : List Char :=
  s.toList.map Char.toLower

/-- Python's `'gsm' in channel.lower()`. -/
def channelHasGsm (channel : String) : Bool :=
  listContainsSub "gsm".toList (lowerList channel)

/-- `AsteriskManager._determine_call_type` (app/asterisk_manager.py, lines
100–109). -/
def determineCallType (channel context : String) : CallType :=
  if channelHasGsm channel || context == "from-gsm" then
    CallType.INCOMING_GSM
  else if context == "from-bevatel" then
    CallType.SIP_TRUNK
  else if context == "from-internal" then
    CallType.INTERNAL
  else
    CallType.INCOMING_GSM

/-- `AsteriskManager._determine_call_state` (app/asterisk_manager.py, lines
111–119). -/
def determineCallState (eventType channelState : String) : CallState :=
  if eventType == "Newchannel" then
    CallState.RINGING
  else if eventType == "Newstate" && channelState == "6" then
    CallState.ANSWERED
  else if eventType == "Hangup" then
    CallState.HANGUP
  else
    CallState.RINGING

/-- The `CallEvent(...)` construction inside `_handle_ami_event`. -/
def mkCallEvent (ev : RawEvent) : CallEvent :=
  { event_type := ev.event
    channel := ev.channel
    caller_id := ev.callerIDNum
    extension := ev.extension
    unique_id := ev.uniqueid
    timestamp := ev.timestamp
    call_state := some (determineCallState ev.event ev.channelState)
    call_type := some (determineCallType ev.channel ev.context) }

/-- Python dict assignment `d[k] = v` on an association list: replace the
value at the first occurrence of `k` in place, else append at the end. -/
def dictInsert (k : String) (v : CallEvent) : List (String × CallEvent) → List (String × CallEvent)
  | [] => [(k, v)]
  | (k₂, v₂) :: rest =>
    if k₂ == k then (k, v) :: rest else (k₂, v₂) :: dictInsert k v rest

/-- Python dict lookup `d[k]` / membership `k in d`. -/
def dictLookup (k : String) : List (String × CallEvent) → Option CallEvent
  | [] => none
  | (k₂, v₂) :: rest => if k₂ == k then some v₂ else dictLookup k rest

/-- Python `del d[k]` (the handler guards it with `k in d`, so on a true
dict only the single entry with key `k` is removed). -/
def dictRemove (k : String) : List (String × CallEvent) → List (String × CallEvent)
  | [] => []
  | (k₂, v₂) :: rest => if k₂ == k then rest else (k₂, v₂) :: dictRemove k rest

/-- The in-place mutation `self.active_calls[uid].call_state = s`, guarded in
the source by `uid in self.active_calls` (a no-op when the key is absent). -/
def dictUpdateState (k : String) (s : CallState) : List (String × CallEvent) → List (String × CallEvent)
  | [] => []
  | (k₂, v₂) :: rest =>
    if k₂ == k then (k₂, { v₂ with call_state := some s }) :: rest
    else (k₂, v₂) :: dictUpdateState k s rest

/-- Key uniqueness: the invariant of a Python dict rendered as an
association list. -/
def keysNodup (l : List (String × CallEvent)) : Prop :=
  (l.map Prod.fst).Nodup

/-- The mutable state of `AsteriskManager` that the claims touch, plus a
`sentCommands` history recording every action handed to
`client.send_action`.  `hasClient` is `self.client is not None`. -/
structure ManagerState where
  host : String
  port : Nat
  connected : Bool
  hasClient : Bool
  websocketClients : List Nat
  activeCalls : List (String × CallEvent)
  sentCommands : List AmiCommand

/-- `AsteriskManager._route_call` (app/asterisk_manager.py, lines 129–150):
skip with `False` when not connected, else send a `Redirect` action and
return `True`.  The send itself is assumed not to raise. -/
def routeCall (st : ManagerState) (channel destination : String) : ManagerState × Bool :=
  if !st.connected || !st.hasClient then
    (st, false)
  else
    ({ st with sentCommands :=
        st.sentCommands ++ [AmiCommand.redirect channel "from-internal" destination 1] },
     true)

/-- `AsteriskManager._handle_incoming_gsm_call` (lines 121–127): route the
call's channel to extension "1000". -/
def handleIncomingGsmCall (st : ManagerState) (callEvent : CallEvent) : ManagerState :=
  (routeCall st callEvent.channel "1000").1

/-- `AsteriskManager.originate_call` (app/handlers.py, lines 137–159):
fail when not connected, else send an `Originate` action. -/
def originateCall (st : ManagerState) (toNumber fromNumber context : String) :
    ManagerState × Bool :=
  if !st.connected || !st.hasClient then
    (st, false)
  else
    ({ st with sentCommands :=
        st.sentCommands ++
          [AmiCommand.originate ("SIP/" ++ toNumber) context toNumber fromNumber 1] },
     true)

/-- `AsteriskManager._handle_ami_event` (app/asterisk_manager.py, lines
48–98), restricted to the state it mutates.  The spawned broadcast task only
touches `websocket_clients` and is modelled by `broadcastEvent` below; the
spawned GSM-routing task is run synchronously. -/
def handleAmiEvent (st : ManagerState) (ev : RawEvent) : ManagerState :=
  let callType := determineCallType ev.channel ev.context
  let callEvent := mkCallEvent ev
  if ev.event == "Newchannel" then
    let st₂ := { st with activeCalls := dictInsert ev.uniqueid callEvent st.activeCalls }
    if callType == CallType.INCOMING_GSM then handleIncomingGsmCall st₂ callEvent
    else st₂
  else if ev.event == "Newstate" then
    if ev.channelState == "6" then
      { st with activeCalls := dictUpdateState ev.uniqueid CallState.ANSWERED st.activeCalls }
    else st
  else if ev.event == "Hangup" then
    if (dictLookup ev.uniqueid st.activeCalls).isSome then
      { st with activeCalls := dictRemove ev.uniqueid st.activeCalls }
    else st
  else
    st

/-- Folding a sequence of AMI events through the handler. -/
def processEvents (st : ManagerState) (evs : List RawEvent) : ManagerState :=
  evs.foldl handleAmiEvent st

/-- The send loop of `AsteriskManager._broadcast_event` (lines 152–169):
walk the subscriber list in order; `outcome i` tells whether the `i`-th
send succeeds.  Returns (successfully delivered, collected
`disconnected_clients`), both in loop order. -/
def sendLoop (outcome : Nat → Bool) : List Nat → List Nat × List Nat
  | [] => ([], [])
  | w :: ws =>
    let p := sendLoop (fun i => outcome (i + 1)) ws
    if outcome 0 then (w :: p.1, p.2) else (p.1, w :: p.2)

/-- The removal loop after the sends: `self.websocket_clients.remove(w)` for
each collected client — Python `list.remove` drops the first occurrence. -/
def removeClients (subs disc : List Nat) : List Nat :=
  disc.foldl List.erase subs

/-- `AsteriskManager._broadcast_event`: returns (delivered clients, new
subscriber list). An empty subscriber list returns immediately. -/
def broadcastEvent (outcome : Nat → Bool) (subs : List Nat) : List Nat × List Nat :=
  if subs.isEmpty then ([], subs)
  else
    let p := sendLoop outcome subs
    (p.1, removeClients subs p.2)

/-- `AsteriskManager.add_websocket_client` (lines 171–174): plain append. -/
def addWebsocketClient (subs : List Nat) (w : Nat) : List Nat :=
  subs ++ [w]

/-- The payload of `AsteriskManager.get_status` (lines 186–194). -/
structure StatusData where
  connected : Bool
  host : String
  port : Nat
  active_calls : Nat
  websocket_clients : Nat
deriving DecidableEq

/-- `AsteriskManager.get_status`. -/
def getStatus (st : ManagerState) : StatusData :=
  { connected := st.connected
    host := st.host
    port := st.port
    active_calls := st.activeCalls.length
    websocket_clients := st.websocketClients.length }

/-- `AsteriskManager.get_active_calls` (lines 182–184): the dict's values in
insertion order. -/
def getActiveCalls (st : ManagerState) : List CallEvent :=
  st.activeCalls.map Prod.snd

/-- A push message sent over a subscriber's WebSocket (`main.py`): the two
snapshot shapes sent on subscription, and the raw call-event notification
shape sent by `_broadcast_event`. -/
inductive WsMessage where
  | statusMsg (data : StatusData)
  | activeCallsMsg (data : List CallEvent)
  | callEventMsg (e : CallEvent)
deriving DecidableEq

/-- The subscription prologue of `websocket_endpoint` (app/main.py, lines
34–52): register the client, then push the status snapshot, then the
active-calls snapshot, in that order, before entering the receive loop. -/
def websocketEndpointInit (st : ManagerState) (w : Nat) : ManagerState × List WsMessage :=
  let st₂ := { st with websocketClients := addWebsocketClient st.websocketClients w }
  (st₂, [WsMessage.statusMsg (getStatus st₂), WsMessage.activeCallsMsg (getActiveCalls st₂)])

/-- The live pushes one subscriber receives while a sequence of AMI events is
processed, every delivery succeeding: each handled event broadcasts its
normalized `CallEvent` to the subscriber. -/
def sessionMessages (st : ManagerState) : List RawEvent → List WsMessage
  | [] => []
  | e :: rest =>
    WsMessage.callEventMsg (mkCallEvent e) :: sessionMessages (handleAmiEvent st e) rest

/-- Everything one subscriber receives: the subscription prologue followed by
the live pushes. -/
def subscriberMessages (st : ManagerState) (w : Nat) (evs : List RawEvent) : List WsMessage :=
  (websocketEndpointInit st w).2 ++ sessionMessages (websocketEndpointInit st w).1 evs

/-- A sample manager state: link connected, a live client object, no
subscribers, empty registry, no commands sent yet. -/
def sampleState : ManagerState :=
  { host := "localhost", port := 5038, connected := true, hasClient := true,
    websocketClients := [], activeCalls := [], sentCommands := [] }

/-- The sample manager with the AMI link down. -/
def sampleStateDown : ManagerState :=
  { sampleState with connected := false }

/-- Creation event of a sample GSM call "u1". -/
def evNew : RawEvent :=
  { event := "Newchannel", channel := "GSM/1-00000001", callerIDNum := "111",
    extension := "", uniqueid := "u1", timestamp := "1700000000",
    context := "from-gsm", channelState := "4" }

/-- State change of call "u1" to channel state "6" ("Up"). -/
def evUp : RawEvent := { evNew with event := "Newstate", channelState := "6" }

/-- State change of call "u1" to the non-"6" channel state "5". -/
def evRinging : RawEvent := { evNew with event := "Newstate", channelState := "5" }

/-- Hangup of call "u1". -/
def evHang : RawEvent := { evNew with event := "Hangup" }

/-! ## Association-list (dict) lemmas -/

theorem dictLookup_dictInsert_self (k : String) (v : CallEvent) (l : List (String × CallEvent)) :
    dictLookup k (dictInsert k v l) = some v := by
  induction l with
  | nil => simp [dictInsert, dictLookup]
  | cons p rest ih =>
    obtain ⟨k₂, v₂⟩ := p
    by_cases h : (k₂ == k) = true
    · simp [dictInsert, dictLookup, h]
    · simp [dictInsert, dictLookup, h, ih]

theorem dictInsert_dictInsert_self (k : String) (v : CallEvent) (l : List (String × CallEvent)) :
    dictInsert k v (dictInsert k v l) = dictInsert k v l := by
  induction l with
  | nil => simp [dictInsert]
  | cons p rest ih =>
    obtain ⟨k₂, v₂⟩ := p
    by_cases h : (k₂ == k) = true
    · simp [dictInsert, h]
    · simp [dictInsert, h, ih]

theorem dictUpdateState_of_absent (k : String) (s : CallState) (l : List (String × CallEvent))
    (h : dictLookup k l = none) : dictUpdateState k s l = l := by
  induction l with
  | nil => rfl
  | cons p rest ih =>
    obtain ⟨k₂, v₂⟩ := p
    by_cases hk : (k₂ == k) = true
    · simp [dictLookup, hk] at h
    · simp [dictLookup, hk] at h
      simp [dictUpdateState, hk, ih h]

theorem dictLookup_dictUpdateState_self (k : String) (s : CallState)
    (l : List (String × CallEvent)) :
    dictLookup k (dictUpdateState k s l)
      = (dictLookup k l).map (fun v => { v with call_state := some s }) := by
  induction l with
  | nil => rfl
  | cons p rest ih =>
    obtain ⟨k₂, v₂⟩ := p
    by_cases hk : (k₂ == k) = true
    · simp [dictUpdateState, dictLookup, hk]
    · simp [dictUpdateState, dictLookup, hk, ih]

theorem dictLookup_eq_none_of_not_mem_keys (k : String) (l : List (String × CallEvent))
    (h : k ∉ l.map Prod.fst) : dictLookup k l = none := by
  induction l with
  | nil => rfl
  | cons p rest ih =>
    obtain ⟨k₂, v₂⟩ := p
    simp only [List.map_cons, List.mem_cons, not_or] at h
    have hk : (k₂ == k) = false := by
      simp only [beq_eq_false_iff_ne, ne_eq]
      intro he
      exact h.1 he.symm
    simp [dictLookup, hk, ih h.2]

theorem dictLookup_dictRemove_self (k : String) (l : List (String × CallEvent))
    (h : keysNodup l) : dictLookup k (dictRemove k l) = none := by
  induction l with
  | nil => rfl
  | cons p rest ih =>
    obtain ⟨k₂, v₂⟩ := p
    simp [keysNodup] at h
    by_cases hk : (k₂ == k) = true
    · have : k₂ = k := by simpa using hk
      subst this
      simp [dictRemove]
      exact dictLookup_eq_none_of_not_mem_keys k₂ rest (by simpa [keysNodup] using h.1)
    · simp [dictRemove, dictLookup, hk]
      exact ih h.2

theorem keys_dictInsert (k : String) (v : CallEvent) (l : List (String × CallEvent)) :
    (dictInsert k v l).map Prod.fst
      = if k ∈ l.map Prod.fst then l.map Prod.fst else l.map Prod.fst ++ [k] := by
  induction l with
  | nil => simp [dictInsert]
  | cons p rest ih =>
    obtain ⟨k₂, v₂⟩ := p
    by_cases hk : k₂ = k
    · subst hk
      simp [dictInsert]
    · have hkb : (k₂ == k) = false := by simp [hk]
      by_cases hm : k ∈ rest.map Prod.fst
      · simp [dictInsert, hkb, ih, hm, Ne.symm hk]
      · simp [dictInsert, hkb, ih, hm, Ne.symm hk]

theorem keysNodup_dictInsert (k : String) (v : CallEvent) (l : List (String × CallEvent))
    (h : keysNodup l) : keysNodup (dictInsert k v l) := by
  unfold keysNodup at h ⊢
  rw [keys_dictInsert]
  by_cases hm : k ∈ l.map Prod.fst
  · simpa [hm] using h
  · simp [hm, List.nodup_append, h]

theorem keys_dictUpdateState (k : String) (s : CallState) (l : List (String × CallEvent)) :
    (dictUpdateState k s l).map Prod.fst = l.map Prod.fst := by
  induction l with
  | nil => rfl
  | cons p rest ih =>
    obtain ⟨k₂, v₂⟩ := p
    by_cases hk : (k₂ == k) = true
    · simp [dictUpdateState, hk]
    · simp [dictUpdateState, hk, ih]

theorem keysNodup_dictUpdateState (k : String) (s : CallState) (l : List (String × CallEvent))
    (h : keysNodup l) : keysNodup (dictUpdateState k s l) := by
  unfold keysNodup
  rw [keys_dictUpdateState]
  exact h

theorem keys_dictRemove_sublist (k : String) (l : List (String × CallEvent)) :
    ((dictRemove k l).map Prod.fst).Sublist (l.map Prod.fst) := by
  induction l with
  | nil => simp [dictRemove]
  | cons p rest ih =>
    obtain ⟨k₂, v₂⟩ := p
    by_cases hk : (k₂ == k) = true
    · simp only [dictRemove, hk, if_true, List.map_cons]
      exact List.sublist_cons_of_sublist k₂ (List.Sublist.refl (rest.map Prod.fst))
    · simp only [dictRemove, hk, Bool.false_eq_true, if_false, List.map_cons]
      exact List.Sublist.cons₂ k₂ ih

theorem keysNodup_dictRemove (k : String) (l : List (String × CallEvent))
    (h : keysNodup l) : keysNodup (dictRemove k l) := by
  exact List.Nodup.sublist (keys_dictRemove_sublist k l) h

/-! ## Event-handler unfolding lemmas -/

theorem routeCall_activeCalls (st : ManagerState) (channel destination : String) :
    (routeCall st channel destination).1.activeCalls = st.activeCalls := by
  unfold routeCall
  split <;> rfl

theorem routeCall_websocketClients (st : ManagerState) (channel destination : String) :
    (routeCall st channel destination).1.websocketClients = st.websocketClients := by
  unfold routeCall
  split <;> rfl

theorem handleAmiEvent_newchannel_activeCalls (st : ManagerState) (ev : RawEvent)
    (h : ev.event = "Newchannel") :
    (handleAmiEvent st ev).activeCalls
      = dictInsert ev.uniqueid (mkCallEvent ev) st.activeCalls := by
  by_cases hg : (determineCallType ev.channel ev.context == CallType.INCOMING_GSM) = true
  · simp [handleAmiEvent, h, hg, handleIncomingGsmCall, routeCall_activeCalls]
  · simp [handleAmiEvent, h, hg]

theorem handleAmiEvent_newstate_activeCalls (st : ManagerState) (ev : RawEvent)
    (h : ev.event = "Newstate") :
    (handleAmiEvent st ev).activeCalls
      = if ev.channelState == "6" then
          dictUpdateState ev.uniqueid CallState.ANSWERED st.activeCalls
        else st.activeCalls := by
  by_cases h6 : (ev.channelState == "6") = true
  · simp [handleAmiEvent, h, h6]
  · simp [handleAmiEvent, h, h6]

theorem handleAmiEvent_hangup_activeCalls (st : ManagerState) (ev : RawEvent)
    (h : ev.event = "Hangup") :
    (handleAmiEvent st ev).activeCalls
      = if (dictLookup ev.uniqueid st.activeCalls).isSome then
          dictRemove ev.uniqueid st.activeCalls
        else st.activeCalls := by
  by_cases hp : (dictLookup ev.uniqueid st.activeCalls).isSome = true
  · simp [handleAmiEvent, h, hp]
  · simp [handleAmiEvent, h, hp]

theorem handleAmiEvent_of_other_event (st : ManagerState) (ev : RawEvent)
    (h1 : ev.event ≠ "Newchannel") (h2 : ev.event ≠ "Newstate") (h3 : ev.event ≠ "Hangup") :
    handleAmiEvent st ev = st := by
  simp [handleAmiEvent, h1, h2, h3]

theorem handleAmiEvent_keysNodup (st : ManagerState) (ev : RawEvent)
    (h : keysNodup st.activeCalls) : keysNodup (handleAmiEvent st ev).activeCalls := by
  by_cases h1 : ev.event = "Newchannel"
  · rw [handleAmiEvent_newchannel_activeCalls st ev h1]
    exact keysNodup_dictInsert _ _ _ h
  · by_cases h2 : ev.event = "Newstate"
    · rw [handleAmiEvent_newstate_activeCalls st ev h2]
      split
      · exact keysNodup_dictUpdateState _ _ _ h
      · exact h
    · by_cases h3 : ev.event = "Hangup"
      · rw [handleAmiEvent_hangup_activeCalls st ev h3]
        split
        · exact keysNodup_dictRemove _ _ h
        · exact h
      · rw [handleAmiEvent_of_other_event st ev h1 h2 h3]
        exact h

theorem processEvents_cons (st : ManagerState) (e : RawEvent) (rest : List RawEvent) :
    processEvents st (e :: rest) = processEvents (handleAmiEvent st e) rest := rfl

theorem processEvents_keysNodup (evs : List RawEvent) :
    ∀ st : ManagerState, keysNodup st.activeCalls →
    keysNodup (processEvents st evs).activeCalls := by
  induction evs with
  | nil => intro st h; exact h
  | cons e rest ih =>
    intro st h
    rw [processEvents_cons]
    exact ih _ (handleAmiEvent_keysNodup st e h)

/-- How one Newstate event for the registered call `u` transforms the
registry entry: channel state "6" marks it ANSWERED, anything else leaves it
alone. -/
theorem lookup_after_newstate (st : ManagerState) (ev : RawEvent) (u : String) (v : CallEvent)
    (h : ev.event = "Newstate") (hu : ev.uniqueid = u)
    (hv : dictLookup u st.activeCalls = some v) :
    dictLookup u (handleAmiEvent st ev).activeCalls
      = some (if ev.channelState == "6"
              then { v with call_state := some CallState.ANSWERED } else v) := by
  rw [handleAmiEvent_newstate_activeCalls st ev h, hu]
  by_cases h₆ : (ev.channelState == "6") = true
  · simp [h₆, dictLookup_dictUpdateState_self, hv]
  · simp [h₆, hv]

/-- Iterating `lookup_after_newstate` over a whole run of Newstate events:
the entry is ANSWERED exactly when some event in the run carried channel
state "6", else untouched. -/
theorem lookup_after_newstates (u : String) (p : List RawEvent) :
    ∀ (st : ManagerState) (v : CallEvent),
    (∀ e ∈ p, e.event = "Newstate" ∧ e.uniqueid = u) →
    dictLookup u st.activeCalls = some v →
    dictLookup u (processEvents st p).activeCalls
      = some (if p.any (fun e => e.channelState == "6")
              then { v with call_state := some CallState.ANSWERED } else v) := by
  induction p with
  | nil =>
    intro st v _ hv
    simpa [processEvents] using hv
  | cons e rest ih =>
    intro st v hall hv
    have he := hall e (List.mem_cons_self e rest)
    have hrest : ∀ x ∈ rest, x.event = "Newstate" ∧ x.uniqueid = u :=
      fun x hx => hall x (List.mem_cons_of_mem e hx)
    have hstep := lookup_after_newstate st e u v he.1 he.2 hv
    rw [processEvents_cons]
    by_cases h₆ : (e.channelState == "6") = true
    · rw [ih (handleAmiEvent st e) { v with call_state := some CallState.ANSWERED } hrest
          (by simpa [h₆] using hstep)]
      rcases Bool.eq_false_or_eq_true (rest.any (fun x => x.channelState == "6")) with hr | hr
      · simp [List.any_cons, h₆, hr]
      · simp [List.any_cons, h₆, hr]
    · rw [ih (handleAmiEvent st e) v hrest (by simpa [h₆] using hstep)]
      simp [List.any_cons, h₆]

/-- A Newchannel event classified INCOMING_GSM with the link up sends
exactly one Redirect of the event's channel to extension "1000". -/
theorem handleAmiEvent_sentCommands_newchannel_gsm (st : ManagerState) (ev : RawEvent)
    (h : ev.event = "Newchannel")
    (hg : determineCallType ev.channel ev.context = CallType.INCOMING_GSM)
    (hc : st.connected = true) (hcl : st.hasClient = true) :
    (handleAmiEvent st ev).sentCommands
      = st.sentCommands ++ [AmiCommand.redirect ev.channel "from-internal" "1000" 1] := by
  simp [handleAmiEvent, h, hg, handleIncomingGsmCall, routeCall, hc, hcl, mkCallEvent]

/-- A Newchannel event not classified INCOMING_GSM sends nothing. -/
theorem handleAmiEvent_sentCommands_newchannel_nongsm (st : ManagerState) (ev : RawEvent)
    (h : ev.event = "Newchannel")
    (hg : determineCallType ev.channel ev.context ≠ CallType.INCOMING_GSM) :
    (handleAmiEvent st ev).sentCommands = st.sentCommands := by
  simp [handleAmiEvent, h, hg]

/-- No event other than Newchannel ever sends a command. -/
theorem handleAmiEvent_sentCommands_of_ne_newchannel (st : ManagerState) (ev : RawEvent)
    (h : ev.event ≠ "Newchannel") :
    (handleAmiEvent st ev).sentCommands = st.sentCommands := by
  by_cases h₂ : ev.event = "Newstate"
  · by_cases h₆ : (ev.channelState == "6") = true <;>
      simp [handleAmiEvent, h, h₂, h₆]
  · by_cases h₃ : ev.event = "Hangup"
    · by_cases hp : (dictLookup ev.uniqueid st.activeCalls).isSome = true <;>
        simp [handleAmiEvent, h, h₂, h₃, hp]
    · simp [handleAmiEvent, h, h₂, h₃]

/-! ## Broadcast-loop lemmas -/

theorem sendLoop_all_ok (subs : List Nat) :
    ∀ outcome : Nat → Bool, (∀ i, i < subs.length → outcome i = true) →
    sendLoop outcome subs = (subs, []) := by
  induction subs with
  | nil => intro outcome _; rfl
  | cons w ws ih =>
    intro outcome h
    have h₀ : outcome 0 = true := h 0 (by simp)
    have hrec := ih (fun i => outcome (i + 1))
      (fun i hi => h (i + 1) (by simpa using Nat.succ_lt_succ hi))
    simp [sendLoop, h₀, hrec]

/-- When exactly the `k`-th send fails, the loop delivers to everyone else in
order and collects exactly the `k`-th subscriber. -/
theorem sendLoop_single_fail (subs : List Nat) :
    ∀ (outcome : Nat → Bool) (k : Nat) (hk : k < subs.length),
    (∀ i, i < subs.length → (outcome i = false ↔ i = k)) →
    sendLoop outcome subs = (subs.eraseIdx k, [subs.get ⟨k, hk⟩]) := by
  induction subs with
  | nil =>
    intro outcome k hk _
    exact absurd hk (by simp)
  | cons w ws ih =>
    intro outcome k hk h
    cases k with
    | zero =>
      have h₀ : outcome 0 = false := (h 0 hk).mpr rfl
      have hrest : ∀ i, i < ws.length → (fun i => outcome (i + 1)) i = true := by
        intro i hi
        rcases Bool.eq_false_or_eq_true (outcome (i + 1)) with ht | hf
        · exact ht
        · have := (h (i + 1) (by simpa using Nat.succ_lt_succ hi)).mp hf
          omega
      have hrec := sendLoop_all_ok ws _ hrest
      simp [sendLoop, h₀, hrec]
    | succ j =>
      have hkj : j < ws.length := by simpa using Nat.lt_of_succ_lt_succ hk
      have h₀ : outcome 0 = true := by
        rcases Bool.eq_false_or_eq_true (outcome 0) with ht | hf
        · exact ht
        · have := (h 0 (by simp)).mp hf
          omega
      have hshift : ∀ i, i < ws.length → ((fun i => outcome (i + 1)) i = false ↔ i = j) := by
        intro i hi
        constructor
        · intro hf
          have := (h (i + 1) (by simpa using Nat.succ_lt_succ hi)).mp hf
          omega
        · intro hij
          subst hij
          exact (h (i + 1) hk).mpr rfl
      have hrec := ih (fun i => outcome (i + 1)) j hkj hshift
      simp [sendLoop, h₀, hrec]

/-- With no failing subscriber a broadcast delivers to the whole list and
removes nobody. -/
theorem broadcastEvent_all_ok (l : List Nat) :
    broadcastEvent (fun _ => true) l = (l, l) := by
  cases l with
  | nil => rfl
  | cons w ws =>
    have hloop := sendLoop_all_ok (w :: ws) (fun _ => true) (fun _ _ => rfl)
    simp [broadcastEvent, hloop, removeClients]

/-- On a duplicate-free list, erasing the element at position `k` by value
is erasing it by position. -/
theorem erase_get_of_nodup (l : List Nat) :
    ∀ (k : Nat) (hk : k < l.length), l.Nodup →
    l.erase (l.get ⟨k, hk⟩) = l.eraseIdx k := by
  induction l with
  | nil =>
    intro k hk _
    exact absurd hk (by simp)
  | cons w ws ih =>
    intro k hk hnd
    rcases List.nodup_cons.mp hnd with ⟨hwmem, hndws⟩
    cases k with
    | zero => simp
    | succ j =>
      have hj : j < ws.length := by simpa using Nat.lt_of_succ_lt_succ hk
      have hwne : w ≠ ws.get ⟨j, hj⟩ := by
        intro he
        exact hwmem (he ▸ ws.get_mem j hj)
      calc (w :: ws).erase ((w :: ws).get ⟨j + 1, hk⟩)
          = (w :: ws).erase (ws.get ⟨j, hj⟩) := rfl
        _ = w :: ws.erase (ws.get ⟨j, hj⟩) := List.erase_cons_tail (by simpa using hwne)
        _ = w :: ws.eraseIdx j := by rw [ih j hj hndws]

/-! ## Claim theorems -/

/-- Claim C3: the call-type classifier maps a channel containing the GSM
marker (case-insensitively) to INCOMING_GSM irrespective of the context;
otherwise context "from-bevatel" to SIP_TRUNK, context "from-internal" to
INTERNAL, and everything else to the INCOMING_GSM default fallback. -/
theorem callType_classifier_correct (channel context : String) :
    (channelHasGsm channel = true →
      determineCallType channel context = CallType.INCOMING_GSM)
    ∧ (channelHasGsm channel = false → context = "from-bevatel" →
      determineCallType channel context = CallType.SIP_TRUNK)
    ∧ (channelHasGsm channel = false → context = "from-internal" →
      determineCallType channel context = CallType.INTERNAL)
    ∧ (channelHasGsm channel = false → context ≠ "from-bevatel" → context ≠ "from-internal" →
      determineCallType channel context = CallType.INCOMING_GSM) := by
  refine ⟨?_, ?_, ?_, ?_⟩
  · intro hg
    simp [determineCallType, hg]
  · intro hg hc
    subst hc
    simp [determineCallType, hg]
  · intro hg hc
    subst hc
    simp [determineCallType, hg]
  · intro hg h₁ h₂
    by_cases h₃ : context = "from-gsm"
    · subst h₃
      simp [determineCallType, hg]
    · simp [determineCallType, hg, h₁, h₂, h₃]

/-- Witness for C3 at the spec's concrete inputs: channel "GSM/1-00000001"
beats any context; "from-bevatel", "from-internal" and the "unknown-ctx"
fallback behave as claimed on a non-GSM channel. -/
theorem callType_classifier_correct_witness :
    (channelHasGsm "GSM/1-00000001" = true
      ∧ determineCallType "GSM/1-00000001" "from-bevatel" = CallType.INCOMING_GSM)
    ∧ (channelHasGsm "SIP/7" = false
      ∧ determineCallType "SIP/7" "from-bevatel" = CallType.SIP_TRUNK)
    ∧ determineCallType "SIP/7" "from-internal" = CallType.INTERNAL
    ∧ determineCallType "SIP/7" "unknown-ctx" = CallType.INCOMING_GSM :=
  ⟨⟨by decide, (callType_classifier_correct "GSM/1-00000001" "from-bevatel").1 (by decide)⟩,
   ⟨by decide, (callType_classifier_correct "SIP/7" "from-bevatel").2.1 (by decide) rfl⟩,
   (callType_classifier_correct "SIP/7" "from-internal").2.2.1 (by decide) rfl,
   (callType_classifier_correct "SIP/7" "unknown-ctx").2.2.2 (by decide) (by decide) (by decide)⟩

/-- Claim C4: the call-state classifier returns RINGING for "Newchannel",
ANSWERED for "Newstate" with channel state "6", HANGUP for "Hangup", RINGING
for "Newstate" with any other channel state, and RINGING for every other
event type. -/
theorem callState_classifier_correct (eventType channelState : String) :
    determineCallState "Newchannel" channelState = CallState.RINGING
    ∧ (channelState = "6" →
        determineCallState "Newstate" channelState = CallState.ANSWERED)
    ∧ determineCallState "Hangup" channelState = CallState.HANGUP
    ∧ (channelState ≠ "6" →
        determineCallState "Newstate" channelState = CallState.RINGING)
    ∧ (eventType ≠ "Newchannel" → eventType ≠ "Hangup" →
        ¬(eventType = "Newstate" ∧ channelState = "6") →
        determineCallState eventType channelState = CallState.RINGING) := by
  refine ⟨by simp [determineCallState], ?_, by simp [determineCallState], ?_, ?_⟩
  · intro h₆
    subst h₆
    simp [determineCallState]
  · intro h₆
    simp [determineCallState, h₆]
  · intro h₁ h₃ h₂₆
    by_cases h₂ : eventType = "Newstate"
    · subst h₂
      have h₆ : channelState ≠ "6" := fun hc => h₂₆ ⟨rfl, hc⟩
      simp [determineCallState, h₆]
    · simp [determineCallState, h₁, h₂, h₃]

/-- Witness for C4 at concrete inputs, including the "Newstate"/"5" case
and the fallback event type "Dial". -/
theorem callState_classifier_correct_witness :
    determineCallState "Newchannel" "4" = CallState.RINGING
    ∧ determineCallState "Newstate" "6" = CallState.ANSWERED
    ∧ determineCallState "Hangup" "4" = CallState.HANGUP
    ∧ determineCallState "Newstate" "5" = CallState.RINGING
    ∧ determineCallState "Dial" "6" = CallState.RINGING :=
  ⟨(callState_classifier_correct "Dial" "4").1,
   (callState_classifier_correct "Dial" "6").2.1 rfl,
   (callState_classifier_correct "Dial" "4").2.2.1,
   (callState_classifier_correct "Dial" "5").2.2.2.1 (by decide),
   (callState_classifier_correct "Dial" "6").2.2.2.2 (by decide) (by decide) (by decide)⟩

/-- Claim C6: a state-change or hangup event whose unique_id is not in the
registry leaves the registry unchanged (the handler is a total function, so
no fault is raised). -/
theorem unknown_id_is_noop (st : ManagerState) (ev : RawEvent)
    (habs : dictLookup ev.uniqueid st.activeCalls = none)
    (hev : ev.event = "Newstate" ∨ ev.event = "Hangup") :
    (handleAmiEvent st ev).activeCalls = st.activeCalls := by
  rcases hev with h | h
  · rw [handleAmiEvent_newstate_activeCalls st ev h]
    split
    · exact dictUpdateState_of_absent _ _ _ habs
    · rfl
  · rw [handleAmiEvent_hangup_activeCalls st ev h]
    simp [habs]

/-- Witness for C6: a Newstate for the unknown id "u1" on the empty
registry changes nothing. -/
theorem unknown_id_is_noop_witness :
    dictLookup "u1" sampleState.activeCalls = none
    ∧ (handleAmiEvent sampleState evUp).activeCalls = sampleState.activeCalls :=
  ⟨rfl, unknown_id_is_noop sampleState evUp rfl (Or.inl rfl)⟩

/-- Claim C7: with the AMI link not connected, both the routing redirect and
originate return failure and leave the state — in particular the
`sentCommands` history — untouched: no command is sent, no retry happens. -/
theorem disconnected_link_fails_commands (st : ManagerState) (h : st.connected = false)
    (channel destination toNumber fromNumber context : String) :
    routeCall st channel destination = (st, false)
    ∧ originateCall st toNumber fromNumber context = (st, false) := by
  constructor
  · simp [routeCall, h]
  · simp [originateCall, h]

/-- Witness for C7 on the disconnected sample state. -/
theorem disconnected_link_fails_commands_witness :
    sampleStateDown.connected = false
    ∧ routeCall sampleStateDown "GSM/1-00000001" "1000" = (sampleStateDown, false)
    ∧ originateCall sampleStateDown "2000" "111" "from-internal" = (sampleStateDown, false) :=
  ⟨rfl,
   (disconnected_link_fails_commands sampleStateDown rfl
      "GSM/1-00000001" "1000" "2000" "111" "from-internal").1,
   (disconnected_link_fails_commands sampleStateDown rfl
      "GSM/1-00000001" "1000" "2000" "111" "from-internal").2⟩

/-- Claim C9: the registry upsert performed by a creation event is
idempotent — handling the same Newchannel event twice leaves the registry
exactly as handling it once. -/
theorem creation_upsert_idempotent (st : ManagerState) (ev : RawEvent)
    (h : ev.event = "Newchannel") :
    (handleAmiEvent (handleAmiEvent st ev) ev).activeCalls
      = (handleAmiEvent st ev).activeCalls := by
  rw [handleAmiEvent_newchannel_activeCalls (handleAmiEvent st ev) ev h,
      handleAmiEvent_newchannel_activeCalls st ev h]
  exact dictInsert_dictInsert_self _ _ _

/-- Witness for C9: replaying the sample creation event of "u1". -/
theorem creation_upsert_idempotent_witness :
    evNew.event = "Newchannel"
    ∧ (handleAmiEvent (handleAmiEvent sampleState evNew) evNew).activeCalls
      = (handleAmiEvent sampleState evNew).activeCalls :=
  ⟨rfl, creation_upsert_idempotent sampleState evNew rfl⟩

/-- Counterexample to claim C1 as stated: in the run
Newchannel(u1) · Newstate(u1, "6") · Newstate(u1, "5"), after the final
state-change event the registry entry still reads ANSWERED, while the state
derived from that event is RINGING — a non-"6" Newstate does not write the
derived state back into the entry. -/
theorem registry_tracks_derived_state_counterexample :
    (dictLookup "u1"
        (processEvents sampleState [evNew, evUp, evRinging]).activeCalls).map
      (fun v => v.call_state) = some (some CallState.ANSWERED)
    ∧ determineCallState evRinging.event evRinging.channelState = CallState.RINGING
    ∧ CallState.ANSWERED ≠ CallState.RINGING :=
  ⟨by decide, by decide, by decide⟩

/-- Claim C1 (amended): for a run creation · state-changes · hangup sharing
one unique_id, from any registry with unique keys: the entry is present
right after creation with call_state RINGING; after each prefix of the
state-change events its call_state is ANSWERED if some state-change so far
carried channel state "6" and still RINGING otherwise (a non-"6"
state-change leaves the stored state unchanged rather than writing the
derived RINGING back); after the hangup the entry is gone. -/
theorem registry_lifecycle (st : ManagerState) (hnd : keysNodup st.activeCalls)
    (u : String) (ec : RawEvent) (hce : ec.event = "Newchannel") (hcu : ec.uniqueid = u)
    (mids : List RawEvent) (hm : ∀ e ∈ mids, e.event = "Newstate" ∧ e.uniqueid = u)
    (eh : RawEvent) (hhe : eh.event = "Hangup") (hhu : eh.uniqueid = u) :
    dictLookup u (handleAmiEvent st ec).activeCalls = some (mkCallEvent ec)
    ∧ (mkCallEvent ec).call_state = some CallState.RINGING
    ∧ (∀ p rest, mids = p ++ rest →
        (dictLookup u (processEvents (handleAmiEvent st ec) p).activeCalls).map
            (fun v => v.call_state)
          = some (some (if p.any (fun e => e.channelState == "6")
                        then CallState.ANSWERED else CallState.RINGING)))
    ∧ dictLookup u
        (handleAmiEvent (processEvents (handleAmiEvent st ec) mids) eh).activeCalls
      = none := by
  subst hcu
  have hlook : dictLookup ec.uniqueid (handleAmiEvent st ec).activeCalls
      = some (mkCallEvent ec) := by
    rw [handleAmiEvent_newchannel_activeCalls st ec hce]
    exact dictLookup_dictInsert_self _ _ _
  have hring : (mkCallEvent ec).call_state = some CallState.RINGING := by
    simp [mkCallEvent, hce, determineCallState]
  refine ⟨hlook, hring, ?_, ?_⟩
  · intro p rest hsplit
    have hp : ∀ e ∈ p, e.event = "Newstate" ∧ e.uniqueid = ec.uniqueid := by
      intro e hep
      exact hm e (by rw [hsplit]; exact List.mem_append_left rest hep)
    rw [lookup_after_newstates ec.uniqueid p (handleAmiEvent st ec) (mkCallEvent ec) hp hlook]
    rcases Bool.eq_false_or_eq_true (p.any (fun e => e.channelState == "6")) with hr | hr
    · simp [hr, hring]
    · simp [hr, hring]
  · have hnd₂ : keysNodup (processEvents (handleAmiEvent st ec) mids).activeCalls :=
      processEvents_keysNodup mids _ (handleAmiEvent_keysNodup st ec hnd)
    rw [handleAmiEvent_hangup_activeCalls _ eh hhe, hhu]
    by_cases hp : (dictLookup ec.uniqueid
        (processEvents (handleAmiEvent st ec) mids).activeCalls).isSome = true
    · simp only [hp, if_true]
      exact dictLookup_dictRemove_self _ _ hnd₂
    · simp only [hp, Bool.false_eq_true, if_false]
      simpa using hp

/-- Witness for the amended C1 on the concrete run
Newchannel(u1) · Newstate(u1,"6") · Newstate(u1,"5") · Hangup(u1) from the
empty registry. -/
theorem registry_lifecycle_witness :
    keysNodup sampleState.activeCalls
    ∧ dictLookup "u1" (handleAmiEvent sampleState evNew).activeCalls = some (mkCallEvent evNew)
    ∧ dictLookup "u1"
        (handleAmiEvent
          (processEvents (handleAmiEvent sampleState evNew) [evUp, evRinging])
          evHang).activeCalls = none :=
  ⟨by simp [keysNodup, sampleState],
   (registry_lifecycle sampleState (by simp [keysNodup, sampleState]) "u1" evNew rfl rfl
      [evUp, evRinging] (by decide) evHang rfl rfl).1,
   (registry_lifecycle sampleState (by simp [keysNodup, sampleState]) "u1" evNew rfl rfl
      [evUp, evRinging] (by decide) evHang rfl rfl).2.2.2⟩

/-- Claim C2: broadcasting to N distinct subscribers of which exactly the
k-th fails delivers to exactly the other N−1, removes only the k-th from the
subscriber list once the loop completes, and a subsequent broadcast reaches
exactly the remaining N−1. -/
theorem broadcast_prunes_only_failed (subs : List Nat) (outcome : Nat → Bool) (k : Nat)
    (hnd : subs.Nodup) (hk : k < subs.length)
    (hout : ∀ i, i < subs.length → (outcome i = false ↔ i = k)) :
    (broadcastEvent outcome subs).1 = subs.eraseIdx k
    ∧ (broadcastEvent outcome subs).1.length = subs.length - 1
    ∧ (broadcastEvent outcome subs).2 = subs.eraseIdx k
    ∧ broadcastEvent (fun _ => true) (subs.eraseIdx k) = (subs.eraseIdx k, subs.eraseIdx k)
    ∧ ∀ x ∈ subs, x ≠ subs.get ⟨k, hk⟩ → x ∈ (broadcastEvent outcome subs).1 := by
  have hne : subs.isEmpty = false := by
    cases subs with
    | nil => exact absurd hk (by simp)
    | cons w ws => rfl
  have hloop := sendLoop_single_fail subs outcome k hk hout
  have h₁ : (broadcastEvent outcome subs).1 = subs.eraseIdx k := by
    simp [broadcastEvent, hne, hloop]
  have h₂ : (broadcastEvent outcome subs).2 = subs.eraseIdx k := by
    simp [broadcastEvent, hne, hloop, removeClients]
    exact erase_get_of_nodup subs k hk hnd
  refine ⟨h₁, ?_, h₂, broadcastEvent_all_ok _, ?_⟩
  · rw [h₁]
    have := List.length_eraseIdx_add_one hk
    omega
  · intro x hx hxne
    rw [h₁, ← erase_get_of_nodup subs k hk hnd]
    exact (List.mem_erase_of_ne hxne).mpr hx

/-- Witness for C2: subscribers [1, 2, 3] with the delivery at position 1
failing: both the delivered list and the surviving subscriber list are
[1, 3]. -/
theorem broadcast_prunes_only_failed_witness :
    ([1, 2, 3] : List Nat).Nodup
    ∧ (broadcastEvent (fun i => !(i == 1)) [1, 2, 3]).1 = [1, 3]
    ∧ (broadcastEvent (fun i => !(i == 1)) [1, 2, 3]).2 = [1, 3] :=
  ⟨by decide,
   by
    rw [(broadcast_prunes_only_failed [1, 2, 3] (fun i => !(i == 1)) 1
        (by decide) (by decide) (by decide)).1]
    decide,
   by
    rw [(broadcast_prunes_only_failed [1, 2, 3] (fun i => !(i == 1)) 1
        (by decide) (by decide) (by decide)).2.2.1]
    decide⟩

/-- Claim C10: the subscriber list admits duplicates — re-subscribing an
already-present handle appends a second occurrence and grows the list by
one; an all-success broadcast then delivers once per occurrence; and a
single failed delivery removes exactly one occurrence of the handle,
leaving other handles' occurrence counts untouched. -/
theorem duplicate_subscription (subs : List Nat) (h : Nat) (hmem : h ∈ subs) :
    (addWebsocketClient subs h).length = subs.length + 1
    ∧ (addWebsocketClient subs h).count h = subs.count h + 1
    ∧ 1 < (addWebsocketClient subs h).count h
    ∧ (broadcastEvent (fun _ => true) (addWebsocketClient subs h)).1.count h
        = (addWebsocketClient subs h).count h
    ∧ ∀ (outcome : Nat → Bool) (j : Nat) (hj : j < (addWebsocketClient subs h).length),
        (∀ i, i < (addWebsocketClient subs h).length → (outcome i = false ↔ i = j)) →
        (addWebsocketClient subs h).get ⟨j, hj⟩ = h →
        (broadcastEvent outcome (addWebsocketClient subs h)).2.count h
            = (addWebsocketClient subs h).count h - 1
        ∧ (∀ g, g ≠ h →
            (broadcastEvent outcome (addWebsocketClient subs h)).2.count g
              = (addWebsocketClient subs h).count g)
        ∧ (broadcastEvent outcome (addWebsocketClient subs h)).2.length
            = (addWebsocketClient subs h).length - 1 := by
  have hcount : (addWebsocketClient subs h).count h = subs.count h + 1 := by
    simp [addWebsocketClient]
  refine ⟨by simp [addWebsocketClient], hcount, ?_, ?_, ?_⟩
  · rw [hcount]
    have : 0 < subs.count h := List.count_pos_iff.mpr hmem
    omega
  · rw [broadcastEvent_all_ok]
  · intro outcome j hj hout hget
    have hloop := sendLoop_single_fail (addWebsocketClient subs h) outcome j hj hout
    have h₂ : (broadcastEvent outcome (addWebsocketClient subs h)).2
        = (addWebsocketClient subs h).erase h := by
      have hne : (addWebsocketClient subs h).isEmpty = false := by
        simp [addWebsocketClient]
      rw [hget] at hloop
      simp [broadcastEvent, hne, hloop, removeClients]
    have hmem₂ : h ∈ addWebsocketClient subs h := by
      simp [addWebsocketClient]
    refine ⟨?_, ?_, ?_⟩
    · rw [h₂]
      exact List.count_erase_self h (addWebsocketClient subs h)
    · intro g hg
      rw [h₂]
      exact List.count_erase_of_ne hg (addWebsocketClient subs h)
    · rw [h₂]
      exact List.length_erase_of_mem hmem₂

/-- Witness for C10: re-subscribing handle 7 to [7, 9] gives [7, 9, 7]; a
broadcast failing exactly at the new occurrence (position 2) leaves one
occurrence of 7 and the single 9. -/
theorem duplicate_subscription_witness :
    (7 : Nat) ∈ [7, 9]
    ∧ addWebsocketClient [7, 9] 7 = [7, 9, 7]
    ∧ (addWebsocketClient [7, 9] 7).count 7 = 2
    ∧ (broadcastEvent (fun i => !(i == 2)) (addWebsocketClient [7, 9] 7)).2.count 7 = 1
    ∧ (broadcastEvent (fun i => !(i == 2)) (addWebsocketClient [7, 9] 7)).2.length = 2 :=
  ⟨by decide, by decide,
   by
    rw [(duplicate_subscription [7, 9] 7 (by decide)).2.1]
    decide,
   by
    rw [((duplicate_subscription [7, 9] 7 (by decide)).2.2.2.2
        (fun i => !(i == 2)) 2 (by decide) (by decide) (by decide)).1]
    decide,
   by
    rw [((duplicate_subscription [7, 9] 7 (by decide)).2.2.2.2
        (fun i => !(i == 2)) 2 (by decide) (by decide) (by decide)).2.2]
    decide⟩

/-- Counterexample to claim C5 as stated: replaying the creation event of
call "u1" (same unique_id) fires the redirect a second time — the handler
routes on every Newchannel classified INCOMING_GSM, with no
"newly created" check against the registry — so the redirect is not issued
exactly once per call. -/
theorem redirect_once_per_call_counterexample :
    (handleAmiEvent (handleAmiEvent sampleState evNew) evNew).sentCommands
      = [AmiCommand.redirect "GSM/1-00000001" "from-internal" "1000" 1,
         AmiCommand.redirect "GSM/1-00000001" "from-internal" "1000" 1]
    ∧ ¬((handleAmiEvent (handleAmiEvent sampleState evNew) evNew).sentCommands.length ≤ 1) :=
  ⟨by decide, by decide⟩

/-- Claim C5 (amended): with the link connected, the Routing Policy issues
the redirect of the event's channel to the fixed extension "1000" on every
creation event the classifier reports as INCOMING_GSM — including a
replayed creation event for an already-registered unique_id — and on no
other event: non-creation events and non-GSM creation events send
nothing. -/
theorem redirect_fires_on_gsm_creation (st : ManagerState) (ev : RawEvent) :
    (ev.event = "Newchannel" →
      determineCallType ev.channel ev.context = CallType.INCOMING_GSM →
      st.connected = true → st.hasClient = true →
      (handleAmiEvent st ev).sentCommands
        = st.sentCommands ++ [AmiCommand.redirect ev.channel "from-internal" "1000" 1])
    ∧ (ev.event = "Newchannel" →
      determineCallType ev.channel ev.context ≠ CallType.INCOMING_GSM →
      (handleAmiEvent st ev).sentCommands = st.sentCommands)
    ∧ (ev.event ≠ "Newchannel" →
      (handleAmiEvent st ev).sentCommands = st.sentCommands) :=
  ⟨fun h hg hc hcl => handleAmiEvent_sentCommands_newchannel_gsm st ev h hg hc hcl,
   fun h hg => handleAmiEvent_sentCommands_newchannel_nongsm st ev h hg,
   fun h => handleAmiEvent_sentCommands_of_ne_newchannel st ev h⟩

/-- Witness for the amended C5: the sample GSM creation event fires one
redirect from the connected sample state, and its hangup event fires
none. -/
theorem redirect_fires_on_gsm_creation_witness :
    evNew.event = "Newchannel"
    ∧ determineCallType evNew.channel evNew.context = CallType.INCOMING_GSM
    ∧ sampleState.connected = true
    ∧ (handleAmiEvent sampleState evNew).sentCommands
      = sampleState.sentCommands
        ++ [AmiCommand.redirect evNew.channel "from-internal" "1000" 1]
    ∧ (handleAmiEvent sampleState evHang).sentCommands = sampleState.sentCommands :=
  ⟨rfl, by decide, rfl,
   (redirect_fires_on_gsm_creation sampleState evNew).1 rfl (by decide) rfl rfl,
   (redirect_fires_on_gsm_creation sampleState evHang).2.2 (by decide)⟩

/-- Every live push generated while events are processed is a raw
call-event notification. -/
theorem sessionMessages_all_call_events (evs : List RawEvent) :
    ∀ st : ManagerState, ∀ m ∈ sessionMessages st evs, ∃ e, m = WsMessage.callEventMsg e := by
  induction evs with
  | nil =>
    intro st m hm
    simp [sessionMessages] at hm
  | cons e rest ih =>
    intro st m hm
    simp only [sessionMessages, List.mem_cons] at hm
    rcases hm with hm | hm
    · exact ⟨mkCallEvent e, hm⟩
    · exact ih _ m hm

/-- Claim C8: a new subscriber first receives exactly the status snapshot,
then the active-calls snapshot, and only after those two does it receive
live call-event pushes — every call-event push sits at index ≥ 2 of its
message stream. -/
theorem subscriber_first_messages (st : ManagerState) (w : Nat) (evs : List RawEvent) :
    subscriberMessages st w evs
      = WsMessage.statusMsg (getStatus (websocketEndpointInit st w).1)
        :: WsMessage.activeCallsMsg (getActiveCalls (websocketEndpointInit st w).1)
        :: sessionMessages (websocketEndpointInit st w).1 evs
    ∧ (∀ m ∈ sessionMessages (websocketEndpointInit st w).1 evs,
        ∃ e, m = WsMessage.callEventMsg e)
    ∧ ∀ i e, (subscriberMessages st w evs).get? i = some (WsMessage.callEventMsg e) →
        2 ≤ i := by
  refine ⟨rfl, fun m hm => sessionMessages_all_call_events evs _ m hm, ?_⟩
  intro i e hget
  match i with
  | 0 => simp [subscriberMessages, websocketEndpointInit] at hget
  | 1 => simp [subscriberMessages, websocketEndpointInit] at hget
  | (n + 2) => omega

/-- Witness for C8 at the sample state with subscriber 5 and the sample
creation event as live traffic. -/
theorem subscriber_first_messages_witness :
    subscriberMessages sampleState 5 [evNew]
      = WsMessage.statusMsg (getStatus (websocketEndpointInit sampleState 5).1)
        :: WsMessage.activeCallsMsg (getActiveCalls (websocketEndpointInit sampleState 5).1)
        :: sessionMessages (websocketEndpointInit sampleState 5).1 [evNew] :=
  (subscriber_first_messages sampleState 5 [evNew]).1

end GsmRouter
